import Mathlib

/-!
# Verification of the Visuvia MCTP protocol stack

Shallow embedding of the Visuvia repository's protocol core:

* `src/visuvia/utils/mctp.py` — the MCTP frame codec (`serialize_frame`,
  `MCTPFrame.parse`, `MCTPFrame._convert_data`, `serialize_channel_data`,
  `_parse_datatype`);
* `src/visuvia/utils/data_registry.py` — the channel data registry
  (`DataRegistry.append_data`, `append_text`, `save_data`, `clear_data`,
  `clear_channels`, `__generate_time_array`);
* `src/visuvia/mctp_comm.py` — the controller FSM's application event
  handler (`CommTask.__application_event_handler`, `__drop_loop`,
  `__stop_loop`).

Modelling conventions:

* Byte strings are `List Nat`, each element a byte value `< 256` where
  produced by the serializer; the parser is total on arbitrary `List Nat`.
* Python `struct` packing/unpacking of integers is modelled exactly
  (little-endian, two's complement for the signed codes `b`/`h`/`i`).
  `FLOAT32` samples are identified with their 32-bit IEEE-754 bit pattern
  (a `Nat < 2^32`): the f64→f32→f64 numeric conversion performed by
  `struct.pack('<f')` / `unpack` is exactly the claims' "modulo widening
  of numerics to f64" quotient, and on bit patterns the codec is the
  identity, which is what we prove.  `FLOAT8`/`FLOAT16` are packed by the
  source with the unsigned codes `B`/`H`, which is modelled as such.
* Python exceptions that `MCTPFrame.parse` itself raises as
  `MCTPParseError` are the `ParseResult.err` outcomes; the two exception
  classes that escape `parse` un-wrapped (`struct.error` from unpacking
  `n_of_channels` out of an empty payload slice, and `UnicodeDecodeError`
  from `bytes.decode("utf-8")` on a CHAR channel) are the distinguished
  outcomes `ParseResult.structError` and `ParseResult.unicodeError`.
* Wall-clock times are `ℚ`; Python `float` rounding is not modelled (the
  registry claims are about the formulas the code computes, not about
  IEEE rounding of their values).
-/

namespace Visuvia

/-! ## mctp.py: constants and enums -/

/-- `ParserErrorCode` from `mctp.py`. -/
inductive ParserErrorCode where
  | ELESSMIN      -- Packet smaller than minimum size
  | EUNMATCHSIZE  -- header data size not matching data section size
  | EBADTYPE      -- Unknown frame type specifier
  | EBADDATATYPE  -- Unknown data type specifier
  | EBADDATA      -- Datainfo does not describe data accurately
  | ECHEXCEED     -- More than 32 channels specified
deriving DecidableEq, Repr

/-- `FrameType` from `mctp.py` (wire values given by `FrameType.value`). -/
inductive FrameType where
  | none | sync | sync_resp | ack | request | data | stop | drop
deriving DecidableEq, Repr

/-- The wire value of a frame type (`FrameType(Enum)` member values). -/
def FrameType.value : FrameType → Nat
  | .none => 0
  | .sync => 1
  | .sync_resp => 2
  | .ack => 3
  | .request => 4
  | .data => 5
  | .stop => 6
  | .drop => 7

/-- The Python enum constructor `FrameType(int)`: `some` on a member value,
`none` models the `ValueError` on an unknown value. -/
def frameTypeOfValue : Nat → Option FrameType
  | 0 => some .none
  | 1 => some .sync
  | 2 => some .sync_resp
  | 3 => some .ack
  | 4 => some .request
  | 5 => some .data
  | 6 => some .stop
  | 7 => some .drop
  | _ => Option.none

/-- `DataType` from `mctp.py` (wire values given by `DataType.value`). -/
inductive DataType where
  | char | int8 | int16 | int32 | uint8 | uint16 | uint32
  | float8 | float16 | float32
deriving DecidableEq, Repr

/-- The wire value of a data type (`DataType(Enum)` member values). -/
def DataType.value : DataType → Nat
  | .char => 0
  | .int8 => 1
  | .int16 => 2
  | .int32 => 3
  | .uint8 => 4
  | .uint16 => 5
  | .uint32 => 6
  | .float8 => 7
  | .float16 => 8
  | .float32 => 9

/-- The Python enum constructor `DataType(int)`: `some` on a member value,
`none` models the `ValueError` on an unknown value. -/
def dataTypeOfValue : Nat → Option DataType
  | 0 => some .char
  | 1 => some .int8
  | 2 => some .int16
  | 3 => some .int32
  | 4 => some .uint8
  | 5 => some .uint16
  | 6 => some .uint32
  | 7 => some .float8
  | 8 => some .float16
  | 9 => some .float32
  | _ => Option.none

/-- The `var_size` component of `_parse_datatype` in `mctp.py`: the byte
width of one sample of the given type. -/
def varSize : DataType → Nat
  | .char => 1
  | .int8 => 1
  | .int16 => 2
  | .int32 => 4
  | .uint8 => 1
  | .uint16 => 2
  | .uint32 => 4
  | .float8 => 1   -- packed with struct code 'B' (see _parse_datatype TODO)
  | .float16 => 2  -- packed with struct code 'H' (see _parse_datatype TODO)
  | .float32 => 4

/-- Whether `_parse_datatype` assigns this type a signed struct code
(`b`, `h` or `i`). -/
def isSigned : DataType → Bool
  | .int8 => true
  | .int16 => true
  | .int32 => true
  | _ => false

/-! ## Little-endian byte encoding (Python `int.to_bytes` / `struct`) -/

/-- `u.to_bytes(w, byteorder="little")` for `u < 256^w` (little-endian
byte list of length `w`). -/
def leBytes : Nat → Nat → List Nat
  | 0, _ => []
  | w + 1, u => u % 256 :: leBytes w (u / 256)

/-- Value of a little-endian byte list. -/
def leVal : List Nat → Nat
  | [] => 0
  | b :: bs => b + 256 * leVal bs

/-- `struct.pack` of one sample with the type's struct code (`s`, `b`,
`h`, `i`, `B`, `H`, `I` or `f` via `_parse_datatype`): `some bytes` on
success, `none` models the `struct.error` raised for an out-of-range
value.  Signed codes use two's complement; a CHAR sample is one byte
(code `s` packs a length-1 bytes object); a FLOAT32 sample is its
32-bit pattern (see the module conventions). -/
def packSample (dt : DataType) (v : Int) : Option (List Nat) :=
  let w := varSize dt
  if isSigned dt then
    if -(2 ^ (8 * w - 1) : Int) ≤ v ∧ v < (2 ^ (8 * w - 1) : Int) then
      some (leBytes w (v % (2 ^ (8 * w))).toNat)
    else Option.none
  else
    if 0 ≤ v ∧ v < (2 ^ (8 * w) : Int) then
      some (leBytes w v.toNat)
    else Option.none

/-- `struct.unpack` of one sample of the given type from its `varSize dt`
bytes (little-endian; signed codes decode two's complement). -/
def decodeVal (dt : DataType) (bytes : List Nat) : Int :=
  let u := leVal bytes
  if isSigned dt ∧ 2 ^ (8 * varSize dt - 1) ≤ u then
    (u : Int) - (2 ^ (8 * varSize dt) : Int)
  else (u : Int)

/-- The numeric part of `struct.unpack(f"<{n}{code}", raw)`: decode `n`
consecutive samples of type `dt` from `raw`. -/
def decodeChunks (dt : DataType) : Nat → List Nat → List Int
  | 0, _ => []
  | n + 1, raw =>
      decodeVal dt (raw.take (varSize dt)) :: decodeChunks dt n (raw.drop (varSize dt))

/-! ## UTF-8 validity (Python `bytes.decode("utf-8")` strict mode) -/

/-- Whether a byte list is valid UTF-8 (RFC 3629, surrogates excluded),
i.e. whether Python's `bytes.decode("utf-8")` succeeds on it. -/
def utf8Valid : List Nat → Bool
  | [] => true
  | b :: rest =>
    if b ≤ 0x7F then utf8Valid rest
    else if b ≤ 0xC1 then false
    else if b ≤ 0xDF then
      match rest with
      | c1 :: r => (0x80 ≤ c1 && c1 ≤ 0xBF) && utf8Valid r
      | [] => false
    else if b ≤ 0xEF then
      match rest with
      | c1 :: c2 :: r =>
          (((if b = 0xE0 then 0xA0 else 0x80) ≤ c1) &&
           (c1 ≤ if b = 0xED then 0x9F else 0xBF)) &&
          ((0x80 ≤ c2 && c2 ≤ 0xBF) && utf8Valid r)
      | _ => false
    else if b ≤ 0xF4 then
      match rest with
      | c1 :: c2 :: c3 :: r =>
          (((if b = 0xF0 then 0x90 else 0x80) ≤ c1) &&
           (c1 ≤ if b = 0xF4 then 0x8F else 0xBF)) &&
          ((0x80 ≤ c2 && c2 ≤ 0xBF) &&
           ((0x80 ≤ c3 && c3 ≤ 0xBF) && utf8Valid r))
      | _ => false
    else false

/-! ## Python dict insertion on association lists -/

/-- `d[k] = v` on a Python dict modelled as an ordered association list:
replace in place if the key exists, else append (insertion order). -/
def dictInsert {β : Type} : List (Nat × β) → Nat → β → List (Nat × β)
  | [], k, v => [(k, v)]
  | (k', v') :: rest, k, v =>
      if k' = k then (k, v) :: rest else (k', v') :: dictInsert rest k v

/-! ## The parsed frame and `MCTPFrame.parse` -/

/-- The attributes of an `MCTPFrame` populated by a successful `parse`
(fresh object; `n_of_channels` defaults to 0 as in `__init__`).
`text_channels` values are kept as the raw channel bytes: the claims
compare them "modulo UTF-8 decoding", and `parse` only deposits them
after `utf8Valid` holds. -/
structure MCTPFrame where
  frame_type : FrameType
  data_size : Nat
  n_of_channels : Nat
  data_channels : List (Nat × List Int)
  text_channels : List (Nat × List Nat)
deriving DecidableEq, Repr

/-- Outcome of `MCTPFrame.parse`:
* `ok` — normal return, attributes populated;
* `err c` — `MCTPParseError` with code `c`;
* `structError` — un-wrapped `struct.error` escaping `parse`
  (unpacking `n_of_channels` from an empty payload slice);
* `unicodeError` — un-wrapped `UnicodeDecodeError` escaping `parse`
  (invalid UTF-8 in a CHAR channel, `parsed_data[0].decode("utf-8")`). -/
inductive ParseResult where
  | ok (f : MCTPFrame)
  | err (c : ParserErrorCode)
  | structError
  | unicodeError
deriving DecidableEq, Repr

/-- The result of converting one channel's raw bytes
(`MCTPFrame._convert_data`): numeric samples, or the raw bytes of a CHAR
channel (`struct.unpack(f"<{n}s", raw)` returns the bytes whole). -/
inductive ConvertedData where
  | samples (l : List Int)
  | chars (bs : List Nat)
deriving DecidableEq, Repr

/-- `MCTPFrame._convert_data` from `mctp.py`: map the data-type byte to a
`DataType` (unknown → `EBADDATATYPE`), then unpack
`len(raw) / var_size` samples; a `struct.error` from a length that is not
a whole multiple of the sample width is also raised as `EBADDATATYPE`. -/
def convert_data (raw : List Nat) (datatype_identifier : Nat) :
    Except ParserErrorCode ConvertedData :=
  match dataTypeOfValue datatype_identifier with
  | Option.none => .error .EBADDATATYPE
  | some dt =>
    if dt = .char then
      -- format "<ns" with n = len(raw): returns the bytes as one element
      .ok (.chars raw)
    else
      let w := varSize dt
      let n_of_samples := raw.length / w
      if raw.length ≠ n_of_samples * w then .error .EBADDATATYPE
      else .ok (.samples (decodeChunks dt n_of_samples raw))

/-- The `while total_data_read < self.data_size` loop of
`MCTPFrame.parse` for DATA frames.  `total` is `total_data_read`, `beg`
is `datainfo_beg` (`datainfo_end = beg + 4` throughout).  Python slices
clamp, so a datainfo slice shorter than 4 bytes models the
`struct.error` → `EBADDATA` branch, and a conversion failure raised by
`_convert_data` is re-raised as `EBADDATA`. -/
def parseDataLoop (ds : Nat) (payload : List Nat) (ft : FrameType) (n : Nat) :
    Nat → Nat → List (Nat × List Int) → List (Nat × List Nat) → ParseResult
  | total, beg, dch, tch =>
    if _h : total < ds then
      match (payload.drop beg).take 4 with
      | [b0, b1, b2, b3] =>
        let ch_id := b0
        let ch_data_size := b1 + 256 * b2
        let total' := total + 4 + ch_data_size
        if total' > ds then .err .EUNMATCHSIZE
        else
          let ch_raw_data := (payload.drop (beg + 4)).take ch_data_size
          match convert_data ch_raw_data b3 with
          | .error _ => .err .EBADDATA
          | .ok (.chars bs) =>
              if utf8Valid bs then
                parseDataLoop ds payload ft n total' (beg + ch_data_size + 4)
                  dch (dictInsert tch ch_id bs)
              else .unicodeError
          | .ok (.samples l) =>
              parseDataLoop ds payload ft n total' (beg + ch_data_size + 4)
                (dictInsert dch ch_id l) tch
      | _ => .err .EBADDATA
    else .ok ⟨ft, ds, n, dch, tch⟩
  termination_by total _ _ _ => ds - total
  decreasing_by all_goals omega

/-- `MCTPFrame.parse` from `mctp.py`, on a fresh frame object.  The
header is unpacked with `'<BH5B'` (`raw[0]` = type, `raw[1] + 256*raw[2]`
= `data_size`); the payload slice `raw_msg[8 : 8 + data_size]` clamps
like a Python slice. -/
def parse (raw_msg : List Nat) : ParseResult :=
  if raw_msg.length < 11 then .err .ELESSMIN
  else
    let type_identifier := raw_msg.getD 0 0
    let data_size := raw_msg.getD 1 0 + 256 * raw_msg.getD 2 0
    match frameTypeOfValue type_identifier with
    | Option.none => .err .EBADTYPE
    | some ft =>
      let mctp_data := (raw_msg.drop 8).take data_size
      match ft with
      | .sync_resp =>
        match mctp_data with
        | [] => .structError        -- struct.unpack('<B', b'')
        | n :: _ =>
          if n > 32 then .err .ECHEXCEED
          else .ok ⟨ft, data_size, n, [], []⟩
      | .data =>
        match mctp_data with
        | [] => .structError        -- struct.unpack('<B', b'')
        | n :: _ =>
          if n > 32 then .err .ECHEXCEED
          else parseDataLoop data_size mctp_data ft n 1 1 [] []
      | _ => .ok ⟨ft, data_size, 0, [], []⟩

/-! ## `serialize_channel_data` and `serialize_frame` -/

/-- `serialize_channel_data` from `mctp.py`: pack each sample with the
type's struct code and concatenate; `none` models a `struct.error` on an
out-of-range sample. -/
def serialize_channel_data (dt : DataType) : List Int → Option (List Nat)
  | [] => some []
  | v :: rest =>
    match packSample dt v, serialize_channel_data dt rest with
    | some b, some bs => some (b ++ bs)
    | _, _ => Option.none

/-- The `for ch_datatype, ch_data in data_channels` loop of
`serialize_frame` for DATA frames: emit, per channel,
`ch_id (1 byte) ++ len (2 bytes LE) ++ data_type (1 byte) ++ data`, with
`ch_id` counting up from its argument.  Returns the emitted bytes and the
accumulated `data_size` contribution; `none` models `struct.error` /
`OverflowError` (sample out of range, channel longer than `0xFFFF` bytes,
or `ch_id` past one byte). -/
def serializeChannels : Nat → List (DataType × List Int) → Option (List Nat × Nat)
  | _, [] => some ([], 0)
  | ch_id, (ch_datatype, ch_data) :: rest =>
    match serialize_channel_data ch_datatype ch_data with
    | Option.none => Option.none
    | some sb =>
      if ch_id ≥ 256 ∨ sb.length ≥ 65536 then Option.none
      else
        match serializeChannels (ch_id + 1) rest with
        | Option.none => Option.none
        | some (bs, sz) =>
          some (ch_id :: leBytes 2 sb.length ++ ch_datatype.value :: sb ++ bs,
                4 + sb.length + sz)

/-- `serialize_frame` from `mctp.py`, taking the frame type as the enum
the string argument is mapped to by `_string_to_frame_type`.  `none`
models the explicit `return None` (missing `data_channels` for
SYNC_RESP/DATA) and the `OverflowError`s of `int.to_bytes` (channel
count or `data_size` past their wire fields). -/
def serialize_frame (frame_type : FrameType)
    (data_channels : Option (List (DataType × List Int)) := Option.none) :
    Option (List Nat) :=
  match
    (match frame_type with
     | .sync_resp =>
       match data_channels with
       | Option.none => Option.none
       | some chs =>
         if chs.length ≥ 256 then Option.none
         else some ([chs.length], 1)
     | .data =>
       match data_channels with
       | Option.none => Option.none
       | some chs =>
         if chs.length ≥ 256 then Option.none
         else
           match serializeChannels 0 chs with
           | Option.none => Option.none
           | some (bs, sz) => some (chs.length :: bs, 1 + sz)
     | _ => some (([] : List Nat), 0)) with
  | Option.none => Option.none
  | some (mctp_data, data_size) =>
    if data_size ≥ 65536 then Option.none
    else
      some (frame_type.value :: leBytes 2 data_size ++
            [0x05, 0x05, 0x05, 0x05, 0x05] ++ mctp_data ++ [0x24, 0x25, 0x26])

/-! ## data_registry.py -/

/-- `DataChannel` from `data_registry.py`.  `x_data`/`y_data` are the
numpy arrays (modelled as lists of rationals), `text` the accumulated
text. -/
structure DataChannel where
  recv_time : ℚ
  x_data : List ℚ
  y_data : List ℚ
  text : String
deriving DecidableEq, Repr

/-- `DataRegistry` from `data_registry.py`.  `channels` is the dict in
insertion order; `start_time_ref` is `some t` for a Python number `t` and
`Option.none` for Python `None` (which `clear_channels` assigns). -/
structure DataRegistry where
  channels : List (Nat × DataChannel)
  start_time_ref : Option ℚ
deriving DecidableEq, Repr

/-- `DataRegistry.__init__`. -/
def DataRegistry.init : DataRegistry := ⟨[], some 0⟩

/-- `self.channels[ch_id]` read access: `Option.none` models `KeyError`. -/
def lookupChannel : List (Nat × DataChannel) → Nat → Option DataChannel
  | [], _ => Option.none
  | (k, c) :: rest, ch_id => if k = ch_id then some c else lookupChannel rest ch_id

/-- In-place mutation of the channel object stored under an existing key
(Python mutates the `DataChannel` attributes, the dict keys are
unchanged). -/
def updateChannel : List (Nat × DataChannel) → Nat → DataChannel →
    List (Nat × DataChannel)
  | [], _, _ => []
  | (k', c') :: rest, ch_id, c =>
      if k' = ch_id then (k', c) :: updateChannel rest ch_id c
      else (k', c') :: updateChannel rest ch_id c

/-- `DataRegistry.add_channel`: insert (or overwrite) an empty channel. -/
def DataRegistry.add_channel (r : DataRegistry) (ch_id : Nat) : DataRegistry :=
  { r with channels := dictInsert r.channels ch_id ⟨0, [], [], ""⟩ }

/-- `DataRegistry.set_time_ref`, with the wall clock passed explicitly. -/
def DataRegistry.set_time_ref (r : DataRegistry) (wall : ℚ) : DataRegistry :=
  { r with start_time_ref := some wall }

/-- `DataRegistry.clear_data`: reset every channel's vectors, text and
`recv_time`; the channels themselves persist. -/
def DataRegistry.clear_data (r : DataRegistry) : DataRegistry :=
  { r with channels := r.channels.map (fun p => (p.1, ⟨0, [], [], ""⟩)) }

/-- `DataRegistry.clear_channels`: `self.channels = {}`;
`self.start_time_ref = None`. -/
def DataRegistry.clear_channels (_r : DataRegistry) : DataRegistry :=
  { channels := [], start_time_ref := Option.none }

/-- Python exceptions escaping registry operations. -/
inductive PyExc where
  | keyError (k : Nat)    -- self.channels[ch_id] on a missing key
  | zeroDivisionError     -- full_period / len(arr) with len(arr) == 0
  | typeError             -- time.time() - None after clear_channels
deriving DecidableEq, Repr

/-- `DataRegistry.__generate_time_array`:
`period = full_period / len(arr); [start_time + period * x for x in range(len(arr))]`.
`Option.none` models the `ZeroDivisionError` when `arr` is empty. -/
def generate_time_array (arr : List ℚ) (full_period start_time : ℚ) :
    Option (List ℚ) :=
  if arr.length = 0 then Option.none
  else
    let period := full_period / (arr.length : ℚ)
    some ((List.range arr.length).map (fun x : Nat => start_time + period * (x : ℚ)))

/-- The `for ch_id, ch_data in frame_data.items()` loop of
`DataRegistry.append_data`.  On an exception the partially mutated
channel dict (channels processed so far) is carried in the error. -/
def appendDataLoop (relative_time : ℚ) :
    List (Nat × DataChannel) → List (Nat × List ℚ) →
    Except (PyExc × List (Nat × DataChannel)) (List (Nat × DataChannel))
  | chans, [] => .ok chans
  | chans, (ch_id, ch_data) :: rest =>
    match lookupChannel chans ch_id with
    | Option.none => .error (.keyError ch_id, chans)
    | some channel =>
      let full_period := relative_time - channel.recv_time
      match generate_time_array ch_data full_period channel.recv_time with
      | Option.none => .error (.zeroDivisionError, chans)
      | some ts =>
        let channel' : DataChannel :=
          { channel with
            x_data := channel.x_data ++ ts,
            recv_time := channel.recv_time + full_period,
            y_data := channel.y_data ++ ch_data }
        appendDataLoop relative_time (updateChannel chans ch_id channel') rest

/-- `DataRegistry.append_data`, with the wall clock passed explicitly.
`relative_time = time.time() - self.start_time_ref` raises `TypeError`
when `start_time_ref` is `None`.  Errors carry the registry as left by
the partial mutation. -/
def DataRegistry.append_data (r : DataRegistry) (frame_data : List (Nat × List ℚ))
    (wall : ℚ) : Except (PyExc × DataRegistry) DataRegistry :=
  match r.start_time_ref with
  | Option.none => .error (.typeError, r)
  | some ref =>
    match appendDataLoop (wall - ref) r.channels frame_data with
    | .ok chans => .ok { r with channels := chans }
    | .error (e, chans) => .error (e, { r with channels := chans })

/-- The `for ch_id, ch_text in frame_text_data.items()` loop of
`DataRegistry.append_text`. -/
def appendTextLoop (relative_time : ℚ) :
    List (Nat × DataChannel) → List (Nat × String) →
    Except (PyExc × List (Nat × DataChannel)) (List (Nat × DataChannel))
  | chans, [] => .ok chans
  | chans, (ch_id, ch_text) :: rest =>
    match lookupChannel chans ch_id with
    | Option.none => .error (.keyError ch_id, chans)
    | some channel =>
      let full_period := relative_time - channel.recv_time
      let channel' : DataChannel :=
        { channel with
          text := channel.text ++ ch_text ++ "\n",
          recv_time := channel.recv_time + full_period }
      appendTextLoop relative_time (updateChannel chans ch_id channel') rest

/-- `DataRegistry.append_text`, with the wall clock passed explicitly. -/
def DataRegistry.append_text (r : DataRegistry) (frame_text_data : List (Nat × String))
    (wall : ℚ) : Except (PyExc × DataRegistry) DataRegistry :=
  match r.start_time_ref with
  | Option.none => .error (.typeError, r)
  | some ref =>
    match appendTextLoop (wall - ref) r.channels frame_text_data with
    | .ok chans => .ok { r with channels := chans }
    | .error (e, chans) => .error (e, { r with channels := chans })

/-- Content of a file written by `DataRegistry.save_data`. -/
inductive FileContent where
  | csv (rows : List (ℚ × ℚ))
  | txt (s : String)
deriving DecidableEq, Repr

/-- `channel_<id>.csv`. -/
def csvName (ch_id : Nat) : String := "channel_" ++ toString ch_id ++ ".csv"

/-- `channel_<id>.txt`. -/
def txtName (ch_id : Nat) : String := "channel_" ++ toString ch_id ++ ".txt"

/-- The first loop of `DataRegistry.save_data`: write
`channel_<id>.csv` with rows `zip(x_data, y_data)` for every channel
with non-empty `x_data`.  `writeOk` is the environment: whether opening
and writing the named file succeeds.  An `OSError` on one file
propagates out of the loop (there is no `try`/`except` in `save_data`),
which the error component models: it aborts the iteration. -/
def saveCsvLoop (writeOk : String → Bool) :
    List (Nat × DataChannel) → List (String × FileContent) × Option String
  | [] => ([], Option.none)
  | (ch_id, channel) :: rest =>
    if channel.x_data.length = 0 then saveCsvLoop writeOk rest
    else if writeOk (csvName ch_id) then
      let (ws, e) := saveCsvLoop writeOk rest
      ((csvName ch_id, .csv (channel.x_data.zip channel.y_data)) :: ws, e)
    else ([], some (csvName ch_id))

/-- The second loop of `DataRegistry.save_data`: write
`channel_<id>.txt` for every channel with non-empty `text`. -/
def saveTxtLoop (writeOk : String → Bool) :
    List (Nat × DataChannel) → List (String × FileContent) × Option String
  | [] => ([], Option.none)
  | (ch_id, channel) :: rest =>
    if channel.text = "" then saveTxtLoop writeOk rest
    else if writeOk (txtName ch_id) then
      let (ws, e) := saveTxtLoop writeOk rest
      ((txtName ch_id, .txt channel.text) :: ws, e)
    else ([], some (txtName ch_id))

/-- `DataRegistry.save_data`: run the csv loop, then — only if it did
not raise — the txt loop.  Returns the files actually written (in
order) and the name of the file whose failure aborted the save, if
any. -/
def DataRegistry.save_data (r : DataRegistry) (writeOk : String → Bool) :
    List (String × FileContent) × Option String :=
  match saveCsvLoop writeOk r.channels with
  | (ws, some f) => (ws, some f)
  | (ws, Option.none) =>
    match saveTxtLoop writeOk r.channels with
    | (ws', e) => (ws ++ ws', e)

/-! ## mctp_comm.py: the application event handler -/

/-- `CommTaskState` from `mctp_comm.py`. -/
inductive CommTaskState where
  | idle | sync | connected | transfer
deriving DecidableEq, Repr

/-- The `CommTask` attributes the application-event handler touches.
`sent` records the frames pushed through `serial_ctrl.send` in order;
`time_ref_set` records the `data_registry.set_time_ref()` side effect. -/
structure CommState where
  state : CommTaskState
  flag_send_req : Bool
  flag_send_stop : Bool
  flag_send_drop : Bool
  sent : List FrameType
  frames_received : Nat
  bytes_received : Nat
  time_ref_set : Bool
deriving DecidableEq, Repr

/-- `CommTask.__drop_loop`: send a DROP frame and wait for the echo.
`echo` abstracts the environment: whether a DROP confirmation arrives
before the 3-second deadline.  Retransmissions are abstracted to the one
recorded send (timing is not modelled); the unrecoverable
`SerialCtrlError` path is outside the model.  Both modelled exits set
the state to IDLE; only the confirmed exit clears `flag_send_drop`
itself (the timeout exit returns early, before the clearing line). -/
def dropLoop (echo : Bool) (s : CommState) : CommState :=
  let s1 := { s with sent := s.sent ++ [FrameType.drop] }
  if echo then { s1 with state := .idle, flag_send_drop := false }
  else { s1 with state := .idle }

/-- `CommTask.__stop_loop`: send a STOP frame and wait for the echo.
On confirmation: state CONNECTED and `flag_send_stop` cleared; on
deadline expiry: state IDLE with `flag_send_stop` left set (the early
return skips the clearing line). -/
def stopLoop (echo : Bool) (s : CommState) : CommState :=
  let s1 := { s with sent := s.sent ++ [FrameType.stop] }
  if echo then { s1 with state := .connected, flag_send_stop := false }
  else { s1 with state := .idle }

/-- `CommTask.__application_event_handler`: the `if`/`elif` chain that
drains pending orders at the top of each FSM tick.  Drop has highest
priority; a serviced Request sends the REQUEST frame and sets the
registry time reference. -/
def application_event_handler (echo : Bool) (s : CommState) : CommState :=
  if s.flag_send_drop then
    { dropLoop echo s with flag_send_drop := false }
  else if s.flag_send_req then
    { s with sent := s.sent ++ [FrameType.request],
             flag_send_req := false,
             time_ref_set := true }
  else if s.flag_send_stop then
    { stopLoop echo s with frames_received := 0, bytes_received := 0 }
  else s

/-- `CommTask.send_request` (producer side): only acts in CONNECTED;
switches the state to TRANSFER and raises the request flag. -/
def send_request (s : CommState) : CommState :=
  if s.state ≠ .connected then s
  else { s with state := .transfer, flag_send_req := true }

/-- `CommTask.send_stop` (producer side): only acts in TRANSFER. -/
def send_stop (s : CommState) : CommState :=
  if s.state ≠ .transfer then s
  else { s with flag_send_stop := true, frames_received := 0, bytes_received := 0 }

/-- `CommTask.send_drop` (producer side): acts in any state. -/
def send_drop (s : CommState) : CommState :=
  { s with flag_send_drop := true }

/-! ## Helper lemmas -/

/-- The DATA channel loop can fail with `EUNMATCHSIZE` or `EBADDATA` (or
escape with a `UnicodeDecodeError`), but the `ECHEXCEED` check happens
before the loop: the loop itself never yields it. -/
theorem parseDataLoop_ne_echexceed (ds : Nat) (payload : List Nat)
    (ft : FrameType) (n total beg : Nat) (dch : List (Nat × List Int))
    (tch : List (Nat × List Nat)) :
    parseDataLoop ds payload ft n total beg dch tch ≠ .err .ECHEXCEED := by
  induction total, beg, dch, tch using parseDataLoop.induct ds payload ft n with
  | _ => rw [parseDataLoop]; split <;> simp_all <;> split <;> simp_all

/-! ## Codec round-trip lemmas -/

theorem dataTypeOfValue_value (dt : DataType) :
    dataTypeOfValue dt.value = some dt := by
  cases dt <;> rfl

theorem varSize_pos (dt : DataType) : 0 < varSize dt := by
  cases dt <;> decide

/-- Packing one sample produces `varSize dt` bytes that decode back to
the sample. -/
theorem packSample_decode (dt : DataType) (v : Int) (bs : List Nat)
    (h : packSample dt v = some bs) :
    bs.length = varSize dt ∧ decodeVal dt bs = v := by
  cases dt <;>
    (simp [packSample, isSigned, varSize] at h
     obtain ⟨hrange, hbs⟩ := h
     subst hbs
     constructor
     · simp [leBytes, varSize]
     · simp [decodeVal, leBytes, leVal, isSigned, varSize, -Int.ofNat_toNat]
       first
         | (split <;> omega)
         | omega)

/-- A successfully serialized channel has `varSize dt * len(data)` bytes
and they decode (chunk by chunk) back to the samples. -/
theorem serialize_channel_data_spec (dt : DataType) :
    ∀ (data : List Int) (sb : List Nat),
    serialize_channel_data dt data = some sb →
    sb.length = varSize dt * data.length ∧
    decodeChunks dt data.length sb = data := by
  intro data
  induction data with
  | nil =>
    intro sb h
    injection h with h
    subst h
    exact ⟨by simp, rfl⟩
  | cons v rest ih =>
    intro sb h
    rw [serialize_channel_data] at h
    cases hb : packSample dt v with
    | none => rw [hb] at h; exact Option.noConfusion h
    | some b =>
      cases hrest : serialize_channel_data dt rest with
      | none => rw [hb, hrest] at h; exact Option.noConfusion h
      | some bs =>
        rw [hb, hrest] at h
        injection h with h
        subst h
        obtain ⟨hlb, hdb⟩ := packSample_decode dt v b hb
        obtain ⟨hl, hd⟩ := ih bs hrest
        refine ⟨by simp [hlb, hl]; ring, ?_⟩
        simp only [List.length_cons]
        rw [decodeChunks, ← hlb, List.take_left, List.drop_left, hdb, hd]

/-- The bytes of a Char channel: one byte per sample (`struct.pack('<s')`
of single-byte values). -/
def charBytes (data : List Int) : List Nat := data.map Int.toNat

/-- A successfully serialized Char channel's bytes are exactly the
samples' byte values. -/
theorem serialize_channel_data_char :
    ∀ (data : List Int) (sb : List Nat),
    serialize_channel_data .char data = some sb → sb = charBytes data := by
  intro data
  induction data with
  | nil =>
    intro sb h
    injection h with h
    subst h
    rfl
  | cons v rest ih =>
    intro sb h
    rw [serialize_channel_data] at h
    cases hb : packSample .char v with
    | none => rw [hb] at h; exact Option.noConfusion h
    | some b =>
      cases hrest : serialize_channel_data .char rest with
      | none => rw [hb, hrest] at h; exact Option.noConfusion h
      | some bs =>
        rw [hb, hrest] at h
        injection h with h
        subst h
        have hb2 : b = [v.toNat] := by
          simp [packSample, isSigned, varSize] at hb
          obtain ⟨hr, hbs⟩ := hb
          rw [← hbs]
          simp [leBytes]
          omega
        rw [hb2, ih bs hrest]
        rfl

/-- Inserting a fresh key into a Python dict appends it (insertion
order). -/
theorem dictInsert_fresh {β : Type} :
    ∀ (l : List (Nat × β)) (k : Nat) (v : β),
    (∀ p ∈ l, p.1 ≠ k) → dictInsert l k v = l ++ [(k, v)] := by
  intro l k v
  induction l with
  | nil => intro _; rfl
  | cons p rest ih =>
    intro h
    obtain ⟨k0, v0⟩ := p
    rw [dictInsert, if_neg (h (k0, v0) (List.mem_cons_self _ _)),
        ih (fun q hq => h q (List.mem_cons_of_mem _ hq))]
    rfl

theorem take4_drop_append (pre : List Nat) (a b c d : Nat) (rest2 : List Nat) :
    ((pre ++ a :: b :: c :: d :: rest2).drop pre.length).take 4 = [a, b, c, d] := by
  rw [List.drop_left]
  rfl

theorem takeL_drop_append (pre : List Nat) (a b c d : Nat) (sb bs : List Nat) :
    ((pre ++ a :: b :: c :: d :: (sb ++ bs)).drop (pre.length + 4)).take sb.length
      = sb := by
  have h : pre ++ a :: b :: c :: d :: (sb ++ bs)
      = (pre ++ [a, b, c, d]) ++ (sb ++ bs) := by simp
  have h2 : pre.length + 4 = (pre ++ [a, b, c, d]).length := by simp
  rw [h, h2, List.drop_left, List.take_left]

theorem dropL_drop_append (pre : List Nat) (a b c d : Nat) (sb bs : List Nat) :
    ((pre ++ a :: b :: c :: d :: (sb ++ bs)).drop (pre.length + 4)).drop sb.length
      = bs := by
  have h : pre ++ a :: b :: c :: d :: (sb ++ bs)
      = (pre ++ [a, b, c, d]) ++ (sb ++ bs) := by simp
  have h2 : pre.length + 4 = (pre ++ [a, b, c, d]).length := by simp
  rw [h, h2, List.drop_left, List.drop_left]

/-- The channel-id/sample-sequence association a round-tripped Data
frame is expected to deposit in `data_channels`: ids counted up from
`id0` in input order, Char channels excluded (they land in
`text_channels`). -/
def expectedData (id0 : Nat) : List (DataType × List Int) → List (Nat × List Int)
  | [] => []
  | (dt, s) :: rest =>
    if dt = .char then expectedData (id0 + 1) rest
    else (id0, s) :: expectedData (id0 + 1) rest

/-- The association a round-tripped Data frame is expected to deposit in
`text_channels`: the Char channels, as their byte sequences ("modulo
UTF-8 decoding"). -/
def expectedText (id0 : Nat) : List (DataType × List Int) → List (Nat × List Nat)
  | [] => []
  | (dt, s) :: rest =>
    if dt = .char then (id0, charBytes s) :: expectedText (id0 + 1) rest
    else expectedText (id0 + 1) rest

/-- Every Char channel's bytes decode as UTF-8 (the condition under
which `parse` does not raise `UnicodeDecodeError`). -/
def charsUtf8Ok (chs : List (DataType × List Int)) : Prop :=
  ∀ p ∈ chs, p.1 = DataType.char → utf8Valid (charBytes p.2) = true

instance (chs : List (DataType × List Int)) : Decidable (charsUtf8Ok chs) :=
  List.decidableBAll _ chs

/-- The parse loop, run over a payload suffix produced by
`serializeChannels`, consumes every serialized channel and deposits
exactly the expected numeric and text channels. -/
theorem parseDataLoop_serialized :
    ∀ (chs : List (DataType × List Int)) (id0 : Nat) (body : List Nat) (sz : Nat)
      (pre : List Nat) (ds total beg : Nat)
      (dch : List (Nat × List Int)) (tch : List (Nat × List Nat))
      (ft : FrameType) (n : Nat),
    serializeChannels id0 chs = some (body, sz) →
    charsUtf8Ok chs →
    (∀ p ∈ dch, p.1 < id0) →
    (∀ p ∈ tch, p.1 < id0) →
    ds = pre.length + body.length →
    total = pre.length → beg = pre.length →
    parseDataLoop ds (pre ++ body) ft n total beg dch tch
      = .ok ⟨ft, ds, n, dch ++ expectedData id0 chs, tch ++ expectedText id0 chs⟩ := by
  intro chs
  induction chs with
  | nil =>
    intro id0 body sz pre ds total beg dch tch ft n hser _ _ _ hds htotal hbeg
    injection hser with hser
    injection hser with hbody hsz
    subst htotal
    subst hbeg
    rw [← hbody] at hds
    simp only [List.length_nil, Nat.add_zero] at hds
    subst hds
    rw [← hbody, List.append_nil, parseDataLoop, dif_neg (lt_irrefl _)]
    simp [expectedData, expectedText]
  | cons p rest ih =>
    intro id0 body sz pre ds total beg dch tch ft n hser hutf hdk htk hds htotal hbeg
    obtain ⟨dt, s⟩ := p
    cases hsb : serialize_channel_data dt s with
    | none =>
      simp only [serializeChannels, hsb] at hser
      exact Option.noConfusion hser
    | some sb =>
      simp only [serializeChannels, hsb] at hser
      split at hser
      next => exact Option.noConfusion hser
      next hguard =>
        have hid0 : id0 < 256 := by omega
        have hL : sb.length < 65536 := by omega
        cases hrest : serializeChannels (id0 + 1) rest with
        | none =>
          simp only [hrest] at hser
          exact Option.noConfusion hser
        | some q =>
          obtain ⟨bs, szR⟩ := q
          simp only [hrest] at hser
          injection hser with hser
          injection hser with hbody hsz
          subst hbody
          subst htotal
          subst hbeg
          have hutf0 := hutf (dt, s) (List.mem_cons_self _ _)
          have hutfrest : charsUtf8Ok rest :=
            fun q hq hc => hutf q (List.mem_cons_of_mem _ hq) hc
          have hlb : leBytes 2 sb.length
              = [sb.length % 256, sb.length / 256 % 256] := rfl
          have hlen : (id0 :: leBytes 2 sb.length ++ dt.value :: sb ++ bs).length
              = 4 + sb.length + bs.length := by
            simp [hlb]
            omega
          have hLL : sb.length % 256 + 256 * (sb.length / 256 % 256) = sb.length := by
            omega
          have hshape : pre ++ (id0 :: leBytes 2 sb.length ++ dt.value :: sb ++ bs)
              = pre ++ id0 :: (sb.length % 256) :: (sb.length / 256 % 256)
                  :: dt.value :: (sb ++ bs) := by
            simp [hlb]
          have hre : pre ++ id0 :: (sb.length % 256) :: (sb.length / 256 % 256)
                  :: dt.value :: (sb ++ bs)
              = (pre ++ id0 :: (sb.length % 256) :: (sb.length / 256 % 256)
                  :: dt.value :: sb) ++ bs := by
            simp
          have hplen : (pre ++ id0 :: (sb.length % 256) :: (sb.length / 256 % 256)
                  :: dt.value :: sb).length = pre.length + 4 + sb.length := by
            simp
            omega
          rw [hshape, parseDataLoop, dif_pos (show pre.length < ds by omega)]
          simp only [take4_drop_append]
          simp only [hLL]
          rw [if_neg (show ¬ ds < pre.length + 4 + sb.length by omega)]
          rw [takeL_drop_append]
          by_cases hchar : dt = .char
          · subst hchar
            have hsbc : sb = charBytes s := serialize_channel_data_char s sb hsb
            have hcv : convert_data sb DataType.char.value = .ok (.chars sb) := rfl
            simp only [hcv]
            have hufft : utf8Valid sb = true := by
              rw [hsbc]
              exact hutf0 rfl
            rw [if_pos hufft]
            rw [dictInsert_fresh tch id0 sb (fun p hp => Nat.ne_of_lt (htk p hp))]
            rw [hre]
            rw [ih (id0 + 1) bs szR _ ds _ _ dch (tch ++ [(id0, sb)]) ft n hrest
                hutfrest
                (fun p hp => Nat.lt_succ_of_lt (hdk p hp))
                (fun p hp => by
                  rcases List.mem_append.mp hp with h1 | h1
                  · exact Nat.lt_succ_of_lt (htk p h1)
                  · simp at h1
                    rw [h1]
                    exact Nat.lt_succ_self _)
                (by omega)
                (by omega)
                (by omega)]
            simp [expectedData, expectedText, hsbc, List.append_assoc]
          · obtain ⟨hsl, hsd⟩ := serialize_channel_data_spec dt s sb hsb
            have hns : sb.length / varSize dt = s.length := by
              rw [hsl]
              exact Nat.mul_div_cancel_left _ (varSize_pos dt)
            have hcv : convert_data sb dt.value = .ok (.samples s) := by
              simp only [convert_data, dataTypeOfValue_value, if_neg hchar, hns]
              rw [if_neg (not_ne_iff.mpr (by rw [hsl, Nat.mul_comm]))]
              rw [hsd]
            simp only [hcv]
            rw [dictInsert_fresh dch id0 s (fun p hp => Nat.ne_of_lt (hdk p hp))]
            rw [hre]
            rw [ih (id0 + 1) bs szR _ ds _ _ (dch ++ [(id0, s)]) tch ft n hrest
                hutfrest
                (fun p hp => by
                  rcases List.mem_append.mp hp with h1 | h1
                  · exact Nat.lt_succ_of_lt (hdk p h1)
                  · simp at h1
                    rw [h1]
                    exact Nat.lt_succ_self _)
                (fun p hp => Nat.lt_succ_of_lt (htk p hp))
                (by omega)
                (by omega)
                (by omega)]
            simp [expectedData, expectedText, hchar, List.append_assoc]

/-- The `data_size` tally `serialize_frame`'s channel loop accumulates
equals the length of the emitted channel bytes. -/
theorem serializeChannels_sz :
    ∀ (chs : List (DataType × List Int)) (id0 : Nat) (body : List Nat) (sz : Nat),
    serializeChannels id0 chs = some (body, sz) → sz = body.length := by
  intro chs
  induction chs with
  | nil =>
    intro id0 body sz h
    injection h with h
    injection h with hbody hsz
    rw [← hsz, ← hbody]
    rfl
  | cons p rest ih =>
    intro id0 body sz h
    obtain ⟨dt, s⟩ := p
    cases hsb : serialize_channel_data dt s with
    | none =>
      simp only [serializeChannels, hsb] at h
      exact Option.noConfusion h
    | some sb =>
      simp only [serializeChannels, hsb] at h
      split at h
      next => exact Option.noConfusion h
      next =>
        cases hrest : serializeChannels (id0 + 1) rest with
        | none =>
          simp only [hrest] at h
          exact Option.noConfusion h
        | some q =>
          obtain ⟨bs, szR⟩ := q
          simp only [hrest] at h
          injection h with h
          injection h with hbody hsz
          have := ih (id0 + 1) bs szR hrest
          rw [← hsz, ← hbody]
          simp [leBytes]
          omega

set_option maxRecDepth 8192

/-! ## C1: the codec round trip -/

/-- C1 counterexample: the claim's validity condition for a Data payload
("any list of channels, each a declared DataType with a list of in-range
samples") puts no bound on the number of channels, but a Data frame with
33 channels serializes fine (33 fits the one-byte count) and then fails
to parse with `ECHEXCEED`, so `parse(serialize(...))` yields no frame at
all, let alone an equal one. -/
theorem C1_counterexample :
    (serialize_frame .data (some (List.replicate 33 (DataType.int8, [])))).isSome
      = true ∧
    parse ((serialize_frame .data (some (List.replicate 33 (DataType.int8, [])))).getD [])
      = .err .ECHEXCEED := by
  constructor
  · decide
  · decide

/-- C1 (amended): the round trip holds for every frame kind and every
payload that the serializer accepts, provided a Data payload also has at
most 32 channels and every Char channel's bytes are valid UTF-8:

* every payload-less kind (including `NONE`) parses back to the same
  kind with `data_size = 0` and no channels;
* `SyncResp` with at most 32 channels parses back to the same
  `n_of_channels` (the length of the supplied channel list);
* `Data` with at most 32 channels parses back to the same kind, the same
  `n_of_channels`, and the same per-channel sample sequences — numeric
  samples exactly (with `FLOAT32` samples identified with their 32-bit
  patterns, i.e. modulo the f64 widening), Char channels as their byte
  sequences (modulo UTF-8 decoding) — with channel ids assigned
  `0..n-1` in input order (`expectedData`/`expectedText`). -/
theorem C1_roundtrip_amended :
    (∀ ft, (ft = FrameType.none ∨ ft = .sync ∨ ft = .ack ∨ ft = .request ∨
            ft = .stop ∨ ft = .drop) →
      ∀ dch bytes, serialize_frame ft dch = some bytes →
        parse bytes = .ok ⟨ft, 0, 0, [], []⟩) ∧
    (∀ chs bytes, serialize_frame .sync_resp (some chs) = some bytes →
      chs.length ≤ 32 →
      parse bytes = .ok ⟨.sync_resp, 1, chs.length, [], []⟩) ∧
    (∀ chs bytes, serialize_frame .data (some chs) = some bytes →
      chs.length ≤ 32 → charsUtf8Ok chs →
      ∃ ds, parse bytes
        = .ok ⟨.data, ds, chs.length, expectedData 0 chs, expectedText 0 chs⟩) := by
  refine ⟨?_, ?_, ?_⟩
  · intro ft hft dch bytes hser
    rcases hft with rfl | rfl | rfl | rfl | rfl | rfl <;>
    · simp [serialize_frame] at hser
      subst hser
      decide
  · intro chs bytes hser h32
    simp only [serialize_frame] at hser
    split at hser
    next => exact Option.noConfusion hser
    next mctp dsz hinner =>
      rw [if_neg (show ¬ chs.length ≥ 256 by omega)] at hinner
      injection hinner with hinner
      injection hinner with hm hd
      subst hm
      subst hd
      split at hser
      next => exact Option.noConfusion hser
      next h65 =>
      injection hser with hser
      subst hser
      have hshape : FrameType.sync_resp.value :: leBytes 2 1 ++ [5, 5, 5, 5, 5]
            ++ [chs.length] ++ [0x24, 0x25, 0x26]
          = 2 :: 1 :: 0 :: 5 :: 5 :: 5 :: 5 :: 5 :: chs.length :: [36, 37, 38] := rfl
      rw [hshape]
      simp only [parse, List.getD_cons_zero, List.getD_cons_succ, List.length_cons,
                 frameTypeOfValue, List.drop_succ_cons, List.drop_zero]
      rw [if_neg (by omega)]
      simp [Nat.not_lt.mpr h32]
  · intro chs bytes hser h32 hutf
    simp only [serialize_frame] at hser
    split at hser
    next => exact Option.noConfusion hser
    next mctp dsz hinner =>
      rw [if_neg (show ¬ chs.length ≥ 256 by omega)] at hinner
      cases hsc : serializeChannels 0 chs with
      | none =>
        simp only [hsc] at hinner
        exact Option.noConfusion hinner
      | some q =>
        obtain ⟨bs, sz⟩ := q
        simp only [hsc] at hinner
        injection hinner with hinner
        injection hinner with hm hd
        subst hm
        subst hd
        split at hser
        next => exact Option.noConfusion hser
        next h65 =>
          injection hser with hser
          have hsz := serializeChannels_sz chs 0 bs sz hsc
          subst hsz
          subst hser
          refine ⟨1 + bs.length, ?_⟩
          have hD : 1 + bs.length < 65536 := by omega
          have hshape : FrameType.data.value :: leBytes 2 (1 + bs.length)
                ++ [5, 5, 5, 5, 5] ++ chs.length :: bs ++ [0x24, 0x25, 0x26]
              = 5 :: ((1 + bs.length) % 256) :: ((1 + bs.length) / 256 % 256)
                  :: 5 :: 5 :: 5 :: 5 :: 5 :: chs.length :: (bs ++ [36, 37, 38]) := rfl
          rw [hshape]
          have hDD : (1 + bs.length) % 256 + 256 * ((1 + bs.length) / 256 % 256)
              = 1 + bs.length := by omega
          have htake : List.take (1 + bs.length) (chs.length :: (bs ++ [36, 37, 38]))
              = chs.length :: bs := by
            rw [Nat.add_comm 1 bs.length, List.take_succ_cons, List.take_left]
          simp only [parse, List.getD_cons_zero, List.getD_cons_succ, List.length_cons,
                     frameTypeOfValue, List.drop_succ_cons, List.drop_zero, hDD, htake]
          rw [if_neg (by simp)]
          rw [if_neg (Nat.not_lt.mpr h32)]
          have hmain := parseDataLoop_serialized chs 0 bs bs.length [chs.length]
            (1 + bs.length) 1 1 [] [] .data chs.length hsc hutf
            (by simp) (by simp) (by simp) rfl rfl
          simpa using hmain

/-- Witness for `C1_roundtrip_amended`: a payload-less SYNC frame, a
SyncResp enrolling three channels, and a Data frame with an Int8
channel, a Char channel carrying UTF-8 bytes, and a Float32 channel. -/
theorem C1_roundtrip_amended_witness :
    parse ((serialize_frame .sync Option.none).getD []) = .ok ⟨.sync, 0, 0, [], []⟩ ∧
    parse ((serialize_frame .sync_resp
        (some (List.replicate 3 (DataType.int8, [])))).getD [])
      = .ok ⟨.sync_resp, 1, 3, [], []⟩ ∧
    (∃ ds, parse ((serialize_frame .data
        (some [(.int8, [1, -2]), (.char, [104, 195, 169]),
               (.float32, [1065353216])])).getD [])
      = .ok ⟨.data, ds, 3,
          expectedData 0 [(.int8, [1, -2]), (.char, [104, 195, 169]),
                          (.float32, [1065353216])],
          expectedText 0 [(.int8, [1, -2]), (.char, [104, 195, 169]),
                          (.float32, [1065353216])]⟩) :=
  ⟨C1_roundtrip_amended.1 .sync (Or.inr (Or.inl rfl)) Option.none _ (by decide),
   C1_roundtrip_amended.2.1 (List.replicate 3 (DataType.int8, [])) _ (by decide)
     (by decide),
   C1_roundtrip_amended.2.2 [(.int8, [1, -2]), (.char, [104, 195, 169]),
                             (.float32, [1065353216])] _ (by decide) (by decide)
     (by decide)⟩

/-! ## C2: totality of `parse` -/

/-- C2: the claim says `parse` raises only `MCTPParseError`s with the
enumerated codes, for any buffer, including Data frames whose Char
channel bytes are invalid UTF-8.  The code contradicts its own docstring
("Raises: MCTPParseError: If the parsing failed"): a CHAR channel whose
bytes are not valid UTF-8 raises an un-wrapped `UnicodeDecodeError` at
`parsed_data[0].decode("utf-8")` (first conjunct), and a SYNC_RESP or
DATA header declaring `data_size = 0` raises an un-wrapped
`struct.error` at `struct.unpack('<B', mctp_data[0:1])` on the empty
payload slice (second and third conjuncts). -/
theorem C2_parse_uncaught_exceptions :
    parse [5, 6, 0, 5, 5, 5, 5, 5, 1, 0, 1, 0, 0, 255, 36, 37, 38] = .unicodeError ∧
    parse [2, 0, 0, 5, 5, 5, 5, 5, 36, 37, 38] = .structError ∧
    parse [5, 0, 0, 5, 5, 5, 5, 5, 36, 37, 38] = .structError := by
  refine ⟨?_, by decide, by decide⟩
  have h : utf8Valid [255] = false := by decide
  simp [parse, parseDataLoop, convert_data, dataTypeOfValue, varSize,
        frameTypeOfValue, dictInsert, h]

/-! ## C3: unknown data-type byte -/

/-- C3 counterexample: the claim says that a Data frame whose channel
descriptor carries an unknown `data_type` byte fails with
`EBADDATATYPE`; on the frame
`[5, 5, 0, 5×5, n=1, ch_id=0, size=0, data_type=10, EOM]` (10 maps to no
`DataType` member) `parse` fails with `EBADDATA` instead. -/
theorem C3_counterexample :
    parse [5, 5, 0, 5, 5, 5, 5, 5, 1, 0, 0, 0, 10, 36, 37, 38]
      = .err .EBADDATA ∧
    ParserErrorCode.EBADDATA ≠ ParserErrorCode.EBADDATATYPE := by
  refine ⟨?_, by decide⟩
  simp [parse, parseDataLoop, convert_data, dataTypeOfValue, frameTypeOfValue]

/-- C3 (amended): on an unknown `data_type` byte, `_convert_data` raises
`EBADDATATYPE`, but `parse` catches every `MCTPParseError` from
`_convert_data` and re-raises it as `EBADDATA`, so the error kind
`parse` fails with is `EBADDATA`.  Stated for every raw channel payload
and every unknown data-type value, and, at `parse` level, for the
single-channel Data frames `[5, 5, 0, 5×5, 1, 0, 0, 0, dtv, EOM]`. -/
theorem C3_unknown_datatype_amended (raw : List Nat) (dtv : Nat)
    (h : dataTypeOfValue dtv = Option.none) :
    convert_data raw dtv = .error .EBADDATATYPE ∧
    parse [5, 5, 0, 5, 5, 5, 5, 5, 1, 0, 0, 0, dtv, 36, 37, 38]
      = .err .EBADDATA := by
  constructor
  · simp [convert_data, h]
  · simp [parse, parseDataLoop, convert_data, frameTypeOfValue, h]

/-- Witness for `C3_unknown_datatype_amended` at `raw = []`,
`dtv = 10`. -/
theorem C3_unknown_datatype_amended_witness :
    convert_data [] 10 = .error .EBADDATATYPE ∧
    parse [5, 5, 0, 5, 5, 5, 5, 5, 1, 0, 0, 0, 10, 36, 37, 38]
      = .err .EBADDATA :=
  C3_unknown_datatype_amended [] 10 rfl

/-! ## C4: the 32-channel bound -/

/-- C4: for every SYNC_RESP or DATA buffer with a non-empty declared
payload, if the leading payload byte (`raw_msg[8]`, the field
`n_of_channels`) exceeds 32 then `parse` fails with `ECHEXCEED`, and if
it is at most 32 then `parse` never yields `ECHEXCEED` (whatever else
it does). -/
theorem C4_too_many_channels (t0 b1 b2 x3 x4 x5 x6 x7 n : Nat) (rest : List Nat)
    (hty : t0 = 2 ∨ t0 = 5) (hlen : 2 ≤ rest.length) (hds : 1 ≤ b1 + 256 * b2) :
    (32 < n →
      parse (t0 :: b1 :: b2 :: x3 :: x4 :: x5 :: x6 :: x7 :: n :: rest)
        = .err .ECHEXCEED) ∧
    (n ≤ 32 →
      parse (t0 :: b1 :: b2 :: x3 :: x4 :: x5 :: x6 :: x7 :: n :: rest)
        ≠ .err .ECHEXCEED) := by
  have hlen' : ¬ ((t0 :: b1 :: b2 :: x3 :: x4 :: x5 :: x6 :: x7 :: n :: rest).length < 11) := by
    simp only [List.length_cons]
    omega
  rcases Nat.exists_eq_add_of_le hds with ⟨k, hk⟩
  have htake : List.take (b1 + 256 * b2) (n :: rest) = n :: List.take k rest := by
    rw [hk, Nat.add_comm 1 k]
    rfl
  rcases hty with h | h <;> subst h <;> constructor <;> intro hn
  · simp only [parse, if_neg hlen', List.getD_cons_zero, List.getD_cons_succ,
      List.drop_succ_cons, List.drop_zero, frameTypeOfValue, htake, if_pos hn]
  · simp only [parse, if_neg hlen', List.getD_cons_zero, List.getD_cons_succ,
      List.drop_succ_cons, List.drop_zero, frameTypeOfValue, htake,
      if_neg (Nat.not_lt.mpr hn)]
    simp
  · simp only [parse, if_neg hlen', List.getD_cons_zero, List.getD_cons_succ,
      List.drop_succ_cons, List.drop_zero, frameTypeOfValue, htake, if_pos hn]
  · simp only [parse, if_neg hlen', List.getD_cons_zero, List.getD_cons_succ,
      List.drop_succ_cons, List.drop_zero, frameTypeOfValue, htake,
      if_neg (Nat.not_lt.mpr hn)]
    exact parseDataLoop_ne_echexceed _ _ _ _ _ _ _ _

/-- Witness for `C4_too_many_channels` on the concrete SYNC_RESP buffer
declaring `n_of_channels = 33` (the claim's "in particular" instance),
the DATA variant, and the passing side at `n_of_channels = 32`. -/
theorem C4_too_many_channels_witness :
    parse [2, 1, 0, 5, 5, 5, 5, 5, 33, 36, 37, 38] = .err .ECHEXCEED ∧
    parse [5, 1, 0, 5, 5, 5, 5, 5, 33, 36, 37, 38] = .err .ECHEXCEED ∧
    parse [2, 1, 0, 5, 5, 5, 5, 5, 32, 36, 37, 38] ≠ .err .ECHEXCEED :=
  ⟨(C4_too_many_channels 2 1 0 5 5 5 5 5 33 [36, 37, 38]
      (Or.inl rfl) (by decide) (by decide)).1 (by decide),
   (C4_too_many_channels 5 1 0 5 5 5 5 5 33 [36, 37, 38]
      (Or.inr rfl) (by decide) (by decide)).1 (by decide),
   (C4_too_many_channels 2 1 0 5 5 5 5 5 32 [36, 37, 38]
      (Or.inl rfl) (by decide) (by decide)).2 (by decide)⟩

/-! ## C5: order precedence in the FSM tick -/

/-- C5 counterexample: the claim says that when a Drop order and a
Request order are both pending, the Request is discarded and never
serviced afterwards.  In the code `__application_event_handler` skips
the `elif self.flag_send_req` branch without clearing the flag, so after
the drop is serviced (state IDLE) the request flag is still set, and the
next tick services it: the handler run twice from a state with both
flags pending sends DROP and then REQUEST. -/
theorem C5_counterexample :
    (application_event_handler true
        (send_drop (send_request ⟨.connected, false, false, false, [], 0, 0, false⟩))).state
        = .idle ∧
    (application_event_handler true
        (send_drop (send_request ⟨.connected, false, false, false, [], 0, 0, false⟩))).flag_send_req
        = true ∧
    (application_event_handler true (application_event_handler true
        (send_drop (send_request ⟨.connected, false, false, false, [], 0, 0, false⟩)))).sent
        = [FrameType.drop, FrameType.request] := by
  decide

/-- C5 (amended): within one tick the handler services pending orders
with precedence Drop > Request > Stop (first three conjuncts: exactly
the branch of highest priority runs).  But when Drop and Request are
both pending, the Request is *not* discarded: the drop tick leaves
`flag_send_req` set with the state at IDLE, and the next tick services
the Request anyway (the handler re-checks no state), sending the REQUEST
frame and resetting the registry time reference (last conjunct). -/
theorem C5_order_precedence_amended (echo : Bool) (s : CommState) :
    (s.flag_send_drop = true →
      application_event_handler echo s = { dropLoop echo s with flag_send_drop := false }) ∧
    (s.flag_send_drop = false → s.flag_send_req = true →
      application_event_handler echo s =
        { s with sent := s.sent ++ [FrameType.request],
                 flag_send_req := false, time_ref_set := true }) ∧
    (s.flag_send_drop = false → s.flag_send_req = false → s.flag_send_stop = true →
      application_event_handler echo s =
        { stopLoop echo s with frames_received := 0, bytes_received := 0 }) ∧
    (s.flag_send_drop = true → s.flag_send_req = true →
      (application_event_handler echo s).state = .idle ∧
      (application_event_handler echo s).flag_send_req = true ∧
      (application_event_handler echo (application_event_handler echo s)).sent
        = s.sent ++ [FrameType.drop, FrameType.request]) := by
  refine ⟨fun hd => ?_, fun hd hr => ?_, fun hd hr hs => ?_, fun hd hr => ?_⟩
  · simp [application_event_handler, hd]
  · simp [application_event_handler, hd, hr]
  · simp [application_event_handler, hd, hr, hs]
  · cases echo <;> simp [application_event_handler, dropLoop, hd, hr]

/-- Witness for `C5_order_precedence_amended`: both flags pending from
TRANSFER; the two ticks send DROP then REQUEST. -/
theorem C5_order_precedence_amended_witness :
    (application_event_handler true ⟨.transfer, true, false, true, [], 0, 0, false⟩
      = { dropLoop true ⟨.transfer, true, false, true, [], 0, 0, false⟩ with
            flag_send_drop := false }) ∧
    (application_event_handler true (application_event_handler true
        ⟨.transfer, true, false, true, [], 0, 0, false⟩)).sent
      = [FrameType.drop, FrameType.request] :=
  ⟨(C5_order_precedence_amended true _).1 rfl,
   ((C5_order_precedence_amended true _).2.2.2 rfl rfl).2.2⟩

/-! ## Registry helper lemmas -/

/-- A successful `__generate_time_array` call returns the synthesised
timestamp list. -/
theorem generate_time_array_of_ne_nil (arr : List ℚ) (fp st : ℚ) (h : arr ≠ []) :
    generate_time_array arr fp st
      = some ((List.range arr.length).map
          (fun x : Nat => st + (fp / (arr.length : ℚ)) * (x : ℚ))) := by
  rw [generate_time_array, if_neg (by simpa using h)]

theorem lookupChannel_mem : ∀ (chans : List (Nat × DataChannel)) (k : Nat)
    (c : DataChannel), lookupChannel chans k = some c → (k, c) ∈ chans := by
  intro chans
  induction chans with
  | nil => intro k c h; exact Option.noConfusion h
  | cons p rest ih =>
    intro k c h
    obtain ⟨k', c'⟩ := p
    rw [lookupChannel] at h
    by_cases hk : k' = k
    · rw [if_pos hk] at h
      injection h with h2
      subst hk
      subst h2
      exact List.mem_cons_self _ _
    · rw [if_neg hk] at h
      exact List.mem_cons_of_mem _ (ih k c h)

theorem lookupChannel_update_self : ∀ (chans : List (Nat × DataChannel))
    (k : Nat) (c : DataChannel),
    lookupChannel (updateChannel chans k c) k
      = (lookupChannel chans k).map (fun _ => c) := by
  intro chans k c
  induction chans with
  | nil => rfl
  | cons p rest ih =>
    obtain ⟨k', c'⟩ := p
    rw [updateChannel]
    by_cases hk : k' = k
    · subst hk
      simp [lookupChannel]
    · rw [if_neg hk]
      simp only [lookupChannel, if_neg hk]
      exact ih

theorem lookupChannel_update_ne : ∀ (chans : List (Nat × DataChannel))
    (k k' : Nat) (c : DataChannel), k' ≠ k →
    lookupChannel (updateChannel chans k c) k' = lookupChannel chans k' := by
  intro chans k k' c h
  induction chans with
  | nil => rfl
  | cons p rest ih =>
    obtain ⟨k0, c0⟩ := p
    rw [updateChannel]
    by_cases hk : k0 = k
    · rw [if_pos hk]
      have hne : ¬ (k0 = k') := fun hh => h (hh.symm.trans hk)
      simp only [lookupChannel, if_neg hne]
      exact ih
    · rw [if_neg hk]
      simp only [lookupChannel]
      split
      · rfl
      · exact ih

theorem lookupChannel_update_isSome (chans : List (Nat × DataChannel))
    (k k' : Nat) (c : DataChannel)
    (h : (lookupChannel chans k').isSome) :
    (lookupChannel (updateChannel chans k c) k').isSome := by
  by_cases hk : k' = k
  · subst hk
    rw [lookupChannel_update_self]
    simpa using h
  · rwa [lookupChannel_update_ne _ _ _ _ hk]

/-- `len(x_data) == len(y_data)` for every channel of the dict. -/
def lenInvL (chans : List (Nat × DataChannel)) : Prop :=
  ∀ p ∈ chans, p.2.x_data.length = p.2.y_data.length

instance (chans : List (Nat × DataChannel)) : Decidable (lenInvL chans) :=
  List.decidableBAll _ chans

theorem lenInvL_update : ∀ (chans : List (Nat × DataChannel)) (k : Nat)
    (c : DataChannel), lenInvL chans →
    c.x_data.length = c.y_data.length → lenInvL (updateChannel chans k c) := by
  intro chans k c
  induction chans with
  | nil => intro _ _ p hp; exact absurd hp (List.not_mem_nil p)
  | cons q rest ih =>
    intro h hc
    obtain ⟨k0, c0⟩ := q
    rw [updateChannel]
    have hrest : lenInvL rest := fun p hp => h p (List.mem_cons_of_mem _ hp)
    by_cases hk : k0 = k
    · rw [if_pos hk]
      intro p hp
      rcases List.mem_cons.mp hp with rfl | hp'
      · exact hc
      · exact ih hrest hc p hp'
    · rw [if_neg hk]
      intro p hp
      rcases List.mem_cons.mp hp with rfl | hp'
      · exact h _ (List.mem_cons_self _ _)
      · exact ih hrest hc p hp'

/-- The per-channel mutation the body of the `append_data` loop
performs on a looked-up channel for a burst `s` arriving at relative
time `rel` (the timestamps generated by `__generate_time_array`, the
sample append, and the `recv_time += full_period` update). -/
def burstSpec (rel : ℚ) (ch : DataChannel) (s : List ℚ) : DataChannel :=
  { recv_time := ch.recv_time + (rel - ch.recv_time),
    x_data := ch.x_data ++ (List.range s.length).map
      (fun i : Nat => ch.recv_time + ((rel - ch.recv_time) / (s.length : ℚ)) * (i : ℚ)),
    y_data := ch.y_data ++ s,
    text := ch.text }

/-- Full specification of the `append_data` loop when every channel
exists, every sample list is non-empty and the frame's keys are distinct
(as they are coming from a parsed dict): the loop succeeds, channels not
in the frame are untouched, and each channel in the frame receives
exactly the code's burst update. -/
theorem appendDataLoop_spec (rel : ℚ) :
    ∀ (fd : List (Nat × List ℚ)) (chans : List (Nat × DataChannel)),
    (∀ p ∈ fd, (lookupChannel chans p.1).isSome) →
    (∀ p ∈ fd, p.2 ≠ []) →
    (fd.map Prod.fst).Nodup →
    ∃ chans', appendDataLoop rel chans fd = .ok chans' ∧
      (∀ k, k ∉ fd.map Prod.fst → lookupChannel chans' k = lookupChannel chans k) ∧
      (∀ k s ch, (k, s) ∈ fd → lookupChannel chans k = some ch →
        lookupChannel chans' k = some (burstSpec rel ch s)) := by
  intro fd
  induction fd with
  | nil => exact fun chans _ _ _ => ⟨chans, rfl, fun _ _ => rfl, by simp⟩
  | cons p rest ih =>
    intro chans h_ex h_ne h_nodup
    obtain ⟨k0, s0⟩ := p
    obtain ⟨ch0, hch0⟩ : ∃ c, lookupChannel chans k0 = some c :=
      Option.isSome_iff_exists.mp (h_ex (k0, s0) (List.mem_cons_self _ _))
    have hs0 : s0 ≠ [] := h_ne (k0, s0) (List.mem_cons_self _ _)
    have hmap : List.map Prod.fst ((k0, s0) :: rest) = k0 :: List.map Prod.fst rest := rfl
    rw [hmap] at h_nodup
    have hnodup' := List.nodup_cons.mp h_nodup
    obtain ⟨chans', hok, huntouched, hupd⟩ :=
      ih (updateChannel chans k0 (burstSpec rel ch0 s0))
        (fun q hq => lookupChannel_update_isSome _ _ _ _ (h_ex q (List.mem_cons_of_mem _ hq)))
        (fun q hq => h_ne q (List.mem_cons_of_mem _ hq))
        hnodup'.2
    have hloop : appendDataLoop rel chans ((k0, s0) :: rest) = .ok chans' := by
      simp only [appendDataLoop, hch0, generate_time_array_of_ne_nil _ _ _ hs0]
      exact hok
    refine ⟨chans', hloop, ?_, ?_⟩
    · intro k hk
      rw [List.map_cons, List.mem_cons, not_or] at hk
      rw [huntouched k hk.2, lookupChannel_update_ne _ _ _ _ hk.1]
    · intro k s ch hmem hch
      rcases List.mem_cons.mp hmem with heq | hmem'
      · rw [Prod.mk.injEq] at heq
        obtain ⟨hk, hs⟩ := heq
        subst hk
        subst hs
        rw [hch0] at hch
        injection hch with hcc
        subst hcc
        rw [huntouched k hnodup'.1, lookupChannel_update_self, hch0]
        rfl
      · have hkne : k ≠ k0 := by
          intro h
          subst h
          exact hnodup'.1 (List.mem_map.mpr ⟨(k, s), hmem', rfl⟩)
        refine hupd k s ch hmem' ?_
        rwa [lookupChannel_update_ne _ _ _ _ hkne]

/-- The channel dict as left behind by a registry loop, on either
outcome (normal return, or the partially mutated dict an exception
leaves behind). -/
def chansOf (e : Except (PyExc × List (Nat × DataChannel)) (List (Nat × DataChannel))) :
    List (Nat × DataChannel) :=
  match e with
  | .ok c => c
  | .error (_, c) => c

/-- The `append_data` loop preserves the per-channel length invariant on
every outcome, including the partially mutated dict left behind by a
`KeyError` or `ZeroDivisionError`. -/
theorem appendDataLoop_lenInv (rel : ℚ) :
    ∀ (fd : List (Nat × List ℚ)) (chans : List (Nat × DataChannel)),
    lenInvL chans → lenInvL (chansOf (appendDataLoop rel chans fd)) := by
  intro fd
  induction fd with
  | nil => exact fun chans h => h
  | cons p rest ih =>
    intro chans h
    obtain ⟨k0, s0⟩ := p
    cases hch : lookupChannel chans k0 with
    | none =>
      simp only [appendDataLoop, hch]
      exact h
    | some ch0 =>
      cases hts : generate_time_array s0 (rel - ch0.recv_time) ch0.recv_time with
      | none =>
        simp only [appendDataLoop, hch, hts]
        exact h
      | some ts =>
        simp only [appendDataLoop, hch, hts]
        have hlen : ts.length = s0.length := by
          rw [generate_time_array] at hts
          split at hts
          · exact Option.noConfusion hts
          · injection hts with h2
            rw [← h2, List.length_map, List.length_range]
        refine ih _ (lenInvL_update _ _ _ h ?_)
        have h3 : ch0.x_data.length = ch0.y_data.length :=
          h (k0, ch0) (lookupChannel_mem _ _ _ hch)
        simp only [List.length_append, hlen]
        omega

/-- The `append_text` loop succeeds whenever every channel id exists,
and preserves the length invariant (it never touches `x_data` or
`y_data`). -/
theorem appendTextLoop_spec (rel : ℚ) :
    ∀ (td : List (Nat × String)) (chans : List (Nat × DataChannel)),
    (∀ p ∈ td, (lookupChannel chans p.1).isSome) →
    ∃ chans', appendTextLoop rel chans td = .ok chans' ∧
      (lenInvL chans → lenInvL chans') := by
  intro td
  induction td with
  | nil => exact fun chans _ => ⟨chans, rfl, id⟩
  | cons p rest ih =>
    intro chans h_ex
    obtain ⟨k0, t0⟩ := p
    obtain ⟨ch0, hch0⟩ : ∃ c, lookupChannel chans k0 = some c :=
      Option.isSome_iff_exists.mp (h_ex (k0, t0) (List.mem_cons_self _ _))
    obtain ⟨chans', hok, hinv⟩ :=
      ih (updateChannel chans k0
            { ch0 with text := ch0.text ++ t0 ++ "\n",
                       recv_time := ch0.recv_time + (rel - ch0.recv_time) })
        (fun q hq => lookupChannel_update_isSome _ _ _ _ (h_ex q (List.mem_cons_of_mem _ hq)))
    refine ⟨chans', ?_, fun h => hinv (lenInvL_update _ _ _ h ?_)⟩
    · rw [appendTextLoop, hch0]
      exact hok
    · exact h (k0, ch0) (lookupChannel_mem _ _ _ hch0)

/-! ## C8: the length law -/

/-- C8: from any registry state satisfying the length law in which every
channel id of the incoming frame exists and every numeric sample list is
non-empty (and the time reference is a number, as during transfer), both
`append_data` and `append_text` complete normally and the length law
`len(x_data) = len(y_data)` again holds for every channel of the
registry. -/
theorem C8_length_law (r : DataRegistry) (fd : List (Nat × List ℚ))
    (td : List (Nat × String)) (wall ref : ℚ)
    (h_inv : lenInvL r.channels)
    (h_ref : r.start_time_ref = some ref)
    (h_ex : ∀ p ∈ fd, (lookupChannel r.channels p.1).isSome)
    (h_ne : ∀ p ∈ fd, p.2 ≠ [])
    (h_nodup : (fd.map Prod.fst).Nodup)
    (h_ext : ∀ p ∈ td, (lookupChannel r.channels p.1).isSome) :
    (∃ r1, r.append_data fd wall = .ok r1 ∧ lenInvL r1.channels) ∧
    (∃ r2, r.append_text td wall = .ok r2 ∧ lenInvL r2.channels) := by
  constructor
  · obtain ⟨chans', hok, -, -⟩ :=
      appendDataLoop_spec (wall - ref) fd r.channels h_ex h_ne h_nodup
    refine ⟨{ r with channels := chans' }, ?_, ?_⟩
    · simp [DataRegistry.append_data, h_ref, hok]
    · have h2 := appendDataLoop_lenInv (wall - ref) fd r.channels h_inv
      rw [hok] at h2
      exact h2
  · obtain ⟨chans', hok, hinv⟩ := appendTextLoop_spec (wall - ref) td r.channels h_ext
    refine ⟨{ r with channels := chans' }, ?_, hinv h_inv⟩
    simp [DataRegistry.append_text, h_ref, hok]

/-- Witness for `C8_length_law`: a one-channel registry holding one
balanced sample, receiving one numeric burst and one text chunk. -/
theorem C8_length_law_witness :
    (∃ r1, DataRegistry.append_data ⟨[(0, ⟨0, [0], [5], ""⟩)], some 0⟩
        [(0, [1])] 2 = .ok r1 ∧ lenInvL r1.channels) ∧
    (∃ r2, DataRegistry.append_text ⟨[(0, ⟨0, [0], [5], ""⟩)], some 0⟩
        [(0, "hi")] 2 = .ok r2 ∧ lenInvL r2.channels) :=
  C8_length_law ⟨[(0, ⟨0, [0], [5], ""⟩)], some 0⟩ [(0, [1])] [(0, "hi")] 2 0
    (by decide) rfl (by decide) (by decide) (by decide) (by decide)

/-! ## C9: timestamp synthesis -/

/-- C9: for every `append_data` call on existing channels with non-empty
sample lists (keys distinct, time reference set), the timestamps appended
for a channel whose previous state is `ch` are
`[ch.recv_time + ((now - ch.recv_time) / len(samples)) * i for i in 0..len-1]`
with `now = wall - start_time_ref`; hence the first timestamp of the
burst is the channel's previous `recv_time` (not `now`), and afterwards
the channel's `recv_time` equals `now`. -/
theorem C9_timestamp_synthesis (r : DataRegistry) (fd : List (Nat × List ℚ))
    (wall ref : ℚ)
    (h_ref : r.start_time_ref = some ref)
    (h_ex : ∀ p ∈ fd, (lookupChannel r.channels p.1).isSome)
    (h_ne : ∀ p ∈ fd, p.2 ≠ [])
    (h_nodup : (fd.map Prod.fst).Nodup) :
    ∃ r', r.append_data fd wall = .ok r' ∧
      ∀ k s ch, (k, s) ∈ fd → lookupChannel r.channels k = some ch →
        ∃ ch', lookupChannel r'.channels k = some ch' ∧
          ch'.x_data = ch.x_data ++ (List.range s.length).map
            (fun i : Nat =>
              ch.recv_time + (((wall - ref) - ch.recv_time) / (s.length : ℚ)) * (i : ℚ)) ∧
          ((List.range s.length).map
            (fun i : Nat =>
              ch.recv_time + (((wall - ref) - ch.recv_time) / (s.length : ℚ)) * (i : ℚ))).headD 0
            = ch.recv_time ∧
          ch'.recv_time = wall - ref := by
  obtain ⟨chans', hok, -, hupd⟩ :=
    appendDataLoop_spec (wall - ref) fd r.channels h_ex h_ne h_nodup
  refine ⟨{ r with channels := chans' }, ?_, ?_⟩
  · simp [DataRegistry.append_data, h_ref, hok]
  · intro k s ch hmem hch
    refine ⟨burstSpec (wall - ref) ch s, hupd k s ch hmem hch, rfl, ?_, ?_⟩
    · obtain ⟨m, hm⟩ : ∃ m, s.length = m + 1 :=
        Nat.exists_eq_succ_of_ne_zero (by simpa using h_ne (k, s) hmem)
      rw [hm, List.range_succ_eq_map]
      simp
    · show ch.recv_time + ((wall - ref) - ch.recv_time) = wall - ref
      ring

/-- Witness for `C9_timestamp_synthesis`: channel 7 with `recv_time = 1`,
time reference 2, a burst of two samples arriving at wall time 10. -/
theorem C9_timestamp_synthesis_witness :
    ∃ r', DataRegistry.append_data ⟨[(7, ⟨1, [0], [9], ""⟩)], some 2⟩ [(7, [5, 6])] 10
        = .ok r' ∧
      ∀ k s ch, (k, s) ∈ ([(7, [5, 6])] : List (Nat × List ℚ)) →
        lookupChannel [(7, ⟨1, [0], [9], ""⟩)] k = some ch →
        ∃ ch', lookupChannel r'.channels k = some ch' ∧
          ch'.x_data = ch.x_data ++ (List.range s.length).map
            (fun i : Nat =>
              ch.recv_time + (((10 - 2) - ch.recv_time) / (s.length : ℚ)) * (i : ℚ)) ∧
          ((List.range s.length).map
            (fun i : Nat =>
              ch.recv_time + (((10 - 2) - ch.recv_time) / (s.length : ℚ)) * (i : ℚ))).headD 0
            = ch.recv_time ∧
          ch'.recv_time = 10 - 2 :=
  C9_timestamp_synthesis ⟨[(7, ⟨1, [0], [9], ""⟩)], some 2⟩ [(7, [5, 6])] 10 2
    rfl (by decide) (by decide) (by decide)

/-! ## C10: empty burst raises ZeroDivisionError -/

/-- C10: calling `append_data` with a frame mapping an existing channel
id to an empty sample sequence raises an unguarded `ZeroDivisionError`
(`period = full_period / len(arr)` in `__generate_time_array`), with the
registry — in particular that channel — left unmodified; and such an
empty sequence is producible by the parser from a Data frame declaring
`channel_bytes = 0` (second conjunct: a one-channel Int8 Data frame with
`channel_bytes = 0` parses to `data_channels = {0: ()}`). -/
theorem C10_empty_burst_zero_division (r : DataRegistry) (id : Nat)
    (ch : DataChannel) (wall ref : ℚ)
    (h_ref : r.start_time_ref = some ref)
    (h_ch : lookupChannel r.channels id = some ch) :
    r.append_data [(id, [])] wall = .error (.zeroDivisionError, r) ∧
    parse [5, 5, 0, 5, 5, 5, 5, 5, 1, 0, 0, 0, 1, 36, 37, 38]
      = .ok ⟨.data, 5, 1, [(0, [])], []⟩ := by
  obtain ⟨chs, st⟩ := r
  simp only [DataRegistry.start_time_ref] at h_ref
  subst h_ref
  constructor
  · simp [DataRegistry.append_data, appendDataLoop, h_ch, generate_time_array]
  · simp [parse, parseDataLoop, convert_data, dataTypeOfValue, varSize, decodeChunks,
          frameTypeOfValue, dictInsert]

/-- Witness for `C10_empty_burst_zero_division` on a concrete
one-channel registry. -/
theorem C10_empty_burst_zero_division_witness :
    DataRegistry.append_data ⟨[(3, ⟨0, [], [], ""⟩)], some 0⟩ [(3, [])] 1
        = .error (.zeroDivisionError, ⟨[(3, ⟨0, [], [], ""⟩)], some 0⟩) ∧
    parse [5, 5, 0, 5, 5, 5, 5, 5, 1, 0, 0, 0, 1, 36, 37, 38]
      = .ok ⟨.data, 5, 1, [(0, [])], []⟩ :=
  C10_empty_burst_zero_division ⟨[(3, ⟨0, [], [], ""⟩)], some 0⟩ 3 ⟨0, [], [], ""⟩ 1 0
    rfl rfl

/-! ## C7: `save_data` and per-file failures -/

/-- The csv files `save_data`'s first loop produces from a channel dict
when no write fails. -/
def csvFiles (chans : List (Nat × DataChannel)) : List (String × FileContent) :=
  chans.filterMap (fun p =>
    if p.2.x_data.length = 0 then Option.none
    else some (csvName p.1, .csv (p.2.x_data.zip p.2.y_data)))

/-- The txt files `save_data`'s second loop produces when no write
fails. -/
def txtFiles (chans : List (Nat × DataChannel)) : List (String × FileContent) :=
  chans.filterMap (fun p =>
    if p.2.text = "" then Option.none
    else some (txtName p.1, .txt p.2.text))

theorem saveCsvLoop_all_ok (w : String → Bool) (hw : ∀ f, w f = true) :
    ∀ chans, saveCsvLoop w chans = (csvFiles chans, Option.none) := by
  intro chans
  induction chans with
  | nil => rfl
  | cons p rest ih =>
    obtain ⟨id, ch⟩ := p
    by_cases h0 : ch.x_data = []
    · simp [saveCsvLoop, csvFiles, h0, List.filterMap_cons, ih]
    · simp [saveCsvLoop, csvFiles, h0, hw, List.filterMap_cons, ih]

theorem saveTxtLoop_all_ok (w : String → Bool) (hw : ∀ f, w f = true) :
    ∀ chans, saveTxtLoop w chans = (txtFiles chans, Option.none) := by
  intro chans
  induction chans with
  | nil => rfl
  | cons p rest ih =>
    obtain ⟨id, ch⟩ := p
    by_cases h0 : ch.text = ""
    · simp [saveTxtLoop, txtFiles, h0, List.filterMap_cons, ih]
    · simp [saveTxtLoop, txtFiles, h0, hw, List.filterMap_cons, ih]

/-- When the write of `channel_<id>.csv` fails and every csv file of the
channels listed before it succeeds, the csv loop stops at that file: it
returns exactly the files of the prefix, and nothing after the failing
channel is written. -/
theorem saveCsvLoop_fail (w : String → Bool) :
    ∀ (pre : List (Nat × DataChannel)) (id : Nat) (ch : DataChannel)
      (post : List (Nat × DataChannel)),
    ch.x_data ≠ [] → w (csvName id) = false →
    (∀ p ∈ pre, w (csvName p.1) = true) →
    saveCsvLoop w (pre ++ (id, ch) :: post) = (csvFiles pre, some (csvName id)) := by
  intro pre
  induction pre with
  | nil =>
    intro id ch post hx hw _
    simp [saveCsvLoop, hx, hw, csvFiles]
  | cons p rest ih =>
    intro id ch post hx hw hpre
    obtain ⟨id0, ch0⟩ := p
    have hih := ih id ch post hx hw (fun q hq => hpre q (List.mem_cons_of_mem _ hq))
    by_cases h0 : ch0.x_data = []
    · simp [saveCsvLoop, h0, csvFiles, List.filterMap_cons, hih]
    · have hw0 : w (csvName id0) = true := hpre (id0, ch0) (List.mem_cons_self _ _)
      simp [saveCsvLoop, h0, hw0, csvFiles, List.filterMap_cons, hih]

/-- C7 counterexample: the claim says a failure to write one channel's
file does not prevent the remaining channels' files from being written.
On a registry with two channels that both carry numeric data, when
writing `channel_0.csv` fails (and every other file would succeed),
`save_data` raises out of its loop: the result records no file written
at all — in particular `channel_1.csv` is not written. -/
theorem C7_counterexample :
    DataRegistry.save_data
        ⟨[(0, ⟨0, [1], [2], ""⟩), (1, ⟨0, [3], [4], ""⟩)], some 0⟩
        (fun f => f != "channel_0.csv")
      = ([], some "channel_0.csv") ∧
    (fun f => f != "channel_0.csv") "channel_1.csv" = true := by
  constructor
  · decide
  · decide

/-- C7 (amended): when every file write succeeds, `save_data` writes
`channel_<id>.csv` for every channel with non-empty numeric data and
`channel_<id>.txt` for every channel with non-empty text; but a failure
to write one channel's csv file propagates out of `save_data` (there is
no per-file error handling), so only the files of the channels preceding
it are written and the remaining channels' files are not. -/
theorem C7_save_data_amended (r : DataRegistry) (w : String → Bool) :
    ((∀ f, w f = true) →
      r.save_data w = (csvFiles r.channels ++ txtFiles r.channels, Option.none)) ∧
    (∀ pre id ch post, r.channels = pre ++ (id, ch) :: post →
      ch.x_data ≠ [] → w (csvName id) = false →
      (∀ p ∈ pre, w (csvName p.1) = true) →
      r.save_data w = (csvFiles pre, some (csvName id))) := by
  constructor
  · intro hw
    simp [DataRegistry.save_data, saveCsvLoop_all_ok w hw, saveTxtLoop_all_ok w hw]
  · intro pre id ch post hchan hx hwf hpre
    simp [DataRegistry.save_data, hchan, saveCsvLoop_fail w pre id ch post hx hwf hpre]

/-- Witness for `C7_save_data_amended`: the all-writes-succeed side on a
one-channel registry with data and text, and the failing side on the
two-channel registry whose first csv write fails. -/
theorem C7_save_data_amended_witness :
    (DataRegistry.save_data ⟨[(0, ⟨0, [1], [2], "t"⟩)], some 0⟩ (fun _ => true)
      = (csvFiles [(0, ⟨0, [1], [2], "t"⟩)] ++ txtFiles [(0, ⟨0, [1], [2], "t"⟩)],
         Option.none)) ∧
    (DataRegistry.save_data
        ⟨[(0, ⟨0, [1], [2], ""⟩), (1, ⟨0, [3], [4], ""⟩)], some 0⟩
        (fun f => f != "channel_0.csv")
      = (csvFiles [], some (csvName 0))) :=
  ⟨(C7_save_data_amended ⟨[(0, ⟨0, [1], [2], "t"⟩)], some 0⟩ (fun _ => true)).1
      (fun _ => rfl),
   (C7_save_data_amended
        ⟨[(0, ⟨0, [1], [2], ""⟩), (1, ⟨0, [3], [4], ""⟩)], some 0⟩
        (fun f => f != "channel_0.csv")).2
      [] 0 ⟨0, [1], [2], ""⟩ [(1, ⟨0, [3], [4], ""⟩)] rfl (by decide) (by decide)
      (fun p hp => absurd hp (List.not_mem_nil p))⟩

/-! ## C6: `clear_channels` -/

/-- C6 counterexample: the claim says that after `clear_channels()` the
field `start_time_ref` equals 0; in the code it is assigned `None`
(modelled `Option.none`), which is not the number 0.  Shown on the
freshly initialised registry. -/
theorem C6_counterexample :
    (DataRegistry.clear_channels DataRegistry.init).start_time_ref ≠ some 0 := by
  intro h
  exact Option.noConfusion h

/-- C6 (amended): after `clear_channels()` on any registry state the
channel mapping is empty and `start_time_ref` is `None` (not 0). -/
theorem C6_clear_channels_amended (r : DataRegistry) :
    (r.clear_channels).channels = [] ∧
    (r.clear_channels).start_time_ref = Option.none :=
  ⟨rfl, rfl⟩

end Visuvia
